import Mathlib

/-!
Verification development for `tex_to_epub.py`: a shallow embedding of the
script's data model and operations, with theorems settling the specification
claims about it.

String-rewriting core (`remove_multicols_html`) is embedded at the character
level with Python `str.replace` / `re.sub` substitution semantics: a single
left-to-right pass over the input, non-overlapping matches, and no rescanning
of replacement text.
-/

namespace TexToEpub

/-- Python `str.replace(pat, repl)` semantics, fuel-indexed so that the
recursion is structural: at each position, if `pat` matches, emit `repl` and
continue after the match; otherwise keep the character.  Fuel at least the
length of the string is always enough because each step consumes at least one
character. -/
def repF (p r : List Char) : Nat → List Char → List Char
  | _, [] => []
  | 0, c :: cs => c :: cs
  | n + 1, c :: cs =>
    if p ≠ [] ∧ p.isPrefixOf (c :: cs) then
      r ++ repF p r n ((c :: cs).drop p.length)
    else
      c :: repF p r n cs

/-- `replaceAll p r s` is Python `s.replace(p, r)` (on character lists). -/
def replaceAll (p r s : List Char) : List Char :=
  repF p r s.length s

/-- `clash p w = true` iff `p` and `w` disagree at some common index; then `p`
cannot be a prefix of `w ++ z` for any continuation `z`. -/
def clash : List Char → List Char → Bool
  | [], _ => false
  | _, [] => false
  | a :: p, b :: w => (a != b) || clash p w

/-- `allClash p w`: every suffix of `w` clashes with `p`, so no occurrence of
`p` can start inside `w`, whatever follows `w`. -/
def allClash (p : List Char) : List Char → Bool
  | [] => true
  | c :: w => clash p (c :: w) && allClash p w

/-- `scanOK p rest u`: scanning `u ++ rest`, no occurrence of `p` starts at
any position inside `u`. -/
def scanOK (p rest : List Char) : List Char → Bool
  | [] => true
  | c :: u => !(p.isPrefixOf (c :: (u ++ rest))) && scanOK p rest u

/-- Literal removed by line 16 of the source: the multicols opening tag. -/
def divOpenL : List Char := "<div class=\"multicols\">".toList

/-- Literal removed by line 18 of the source: every closing div tag. -/
def closeDivL : List Char := "</div>".toList

/-- Head literal of the regex `<p><span>\d+</span></p>` (line 20). -/
def markHeadL : List Char := "<p><span>".toList

/-- Tail literal of the regex `<p><span>\d+</span></p>` (line 20). -/
def markTailL : List Char := "</span></p>".toList

/-- Matcher for the regex `<p><span>\d+</span></p>` at the head of `s`:
literal head, one or more digits (greedy, as in `re`), literal tail.  Returns
the remainder after the match. -/
def matchMarker (s : List Char) : Option (List Char) :=
  if markHeadL.isPrefixOf s then
    let t := s.drop 9
    let ds := t.takeWhile Char.isDigit
    let t2 := t.dropWhile Char.isDigit
    if ds ≠ [] ∧ markTailL.isPrefixOf t2 then some (t2.drop 11) else none
  else none

/-- `re.sub(r'<p><span>\d+</span></p>', '', s)` with fuel, analogous to
`repF`: single left-to-right pass, continue after each match. -/
def remMarkF : Nat → List Char → List Char
  | _, [] => []
  | 0, c :: cs => c :: cs
  | n + 1, c :: cs =>
    match matchMarker (c :: cs) with
    | some rest => remMarkF n rest
    | none => c :: remMarkF n cs

/-- The `re.sub` on line 20 of the source. -/
def removeMarkers (s : List Char) : List Char :=
  remMarkF s.length s

/-- `remove_multicols_html` (source lines 9-21): remove the multicols opening
tag, then every `</div>`, then every numbered-marker paragraph. -/
def remove_multicols_html (h : List Char) : List Char :=
  removeMarkers (replaceAll closeDivL [] (replaceAll divOpenL [] h))

/-- `remove_multicols_html` on `String`. -/
def remove_multicols_htmlS (s : String) : String :=
  String.mk (remove_multicols_html s.toList)

/-- Python `str.replace` on `String`. -/
def strReplace (s pat repl : String) : String :=
  String.mk (replaceAll pat.toList repl.toList s.toList)

/-- `Path(d) / f`.  Paths are modelled as plain strings joined with `/`
(the script never passes `.`-relative or slash-terminated directories
in the situations the claims are about). -/
def pathJoin (d f : String) : String := d ++ "/" ++ f

/-- `Path(p).name`: the last `/`-separated component. -/
def baseName (p : String) : String :=
  String.mk ((p.toList.reverse.takeWhile fun c => c ≠ '/').reverse)

/-- `Path(p).parent` rendered as a string: drop the last component,
`.` when there is no directory part. -/
def pathParent (p : String) : String :=
  if p.toList.contains '/' then
    String.mk (p.toList.take
      (p.toList.length - (p.toList.reverse.takeWhile fun c => c ≠ '/').length - 1))
  else "."

/-- Index of the last `.` in a character list, if any. -/
def lastDotIdx (l : List Char) : Option Nat :=
  match l.reverse.findIdx? (· = '.') with
  | some j => some (l.length - 1 - j)
  | none => none

/-- `Path(p).suffix` (pathlib semantics): the extension of the last
component, including the dot; empty when the last dot is leading or
trailing in the name. -/
def pathSuffix (p : String) : String :=
  let n := (baseName p).toList
  match lastDotIdx n with
  | some i => if 0 < i ∧ i < n.length - 1 then String.mk (n.drop i) else ""
  | none => ""

/-- `Path(p).suffix.lower()`. -/
def suffixLower (p : String) : String :=
  String.mk ((pathSuffix p).toList.map Char.toLower)

/-- `Path(p).with_suffix(".jpg")` (source line 41). -/
def withSuffixJpg (p : String) : String :=
  String.mk (p.toList.take (p.toList.length - (pathSuffix p).toList.length)) ++ ".jpg"

/-- `Path(p).stem`: the last component with its suffix removed. -/
def stemOf (p : String) : String :=
  let n := baseName p
  String.mk (n.toList.take (n.toList.length - (pathSuffix p).toList.length))

/-- Python `s.strip(".")`: drop leading and trailing dots. -/
def stripDots (s : String) : String :=
  String.mk (((s.toList.dropWhile (· = '.')).reverse.dropWhile (· = '.')).reverse)

/-- A pandoc image placeholder occurrence as structured by the regex of
source lines 75-78: a `text` piece is HTML outside any placeholder; a `ph`
piece carries the regex's four capture groups (attributes before the
`data-original-image-src` attribute, the referenced filename, attributes
after it, and the inner text).  The single space after `<span` stands for
the regex's `\s+`. -/
inductive HtmlPiece where
  | text (s : String)
  | ph (beforeAttrs imageFile afterAttrs innerText : String)
deriving DecidableEq

/-- Original bytes of a placeholder occurrence (`match.group(0)`). -/
def renderPH (b f a i : String) : String :=
  "<span class=\"image placeholder\"" ++ b ++ "data-original-image-src=\"" ++ f
    ++ "\"" ++ a ++ ">" ++ i ++ "</span>"

/-- Original bytes of a document piece. -/
def renderPiece : HtmlPiece → String
  | .text s => s
  | .ph b f a i => renderPH b f a i

/-- Original bytes of a whole document. -/
def renderDoc (doc : List HtmlPiece) : String :=
  String.join (doc.map renderPiece)

/-- Filesystem / subprocess events the script performs, recorded in order.
Console prints are not events; file reads, writes, renames, directory
creation and child-process invocations are. -/
inductive Ev where
  | log (msg : String)
  | mkdirE (dir : String)
  | pandoc (tex : String)
  | renameF (src dst : String)
  | readF (path : String)
  | magick (pdf : String)
  | copyF (src dst : String)
  | writeEpubE (path : String)
deriving DecidableEq

/-- Events that create or populate a canonical placement directory. -/
def isPlacementEv : Ev → Bool
  | .mkdirE _ => true
  | .copyF _ _ => true
  | _ => false

/-- ePub serialization events. -/
def isWriteE : Ev → Bool
  | .writeEpubE _ => true
  | _ => false

/-- The external world: file existence, directory contents and the outcomes
of the child processes (`pandoc`, ImageMagick `convert`) and of `copyfile`.
All oracles are pure: the run is single-threaded and each question is asked
once at the point the script asks it. -/
structure Env where
  isFile : String → Bool
  isDir : String → Bool
  pandocOK : String → Bool
  htmlProduced : String → Bool
  htmlContent : String → List HtmlPiece
  convertOK : String → Bool
  jpgIsFile : String → Bool
  copyOK : String → String → Bool
  dirFiles : String → List String

/-- The tag substituted for a resolved placeholder (source lines 117/120). -/
def imgTagStr (name : String) : String :=
  "<img src=\"" ++ name ++ "\" alt=\"image\">"

/-- The resolver block of `replace_placeholder` (source lines 88-97): try
`media_dir / file` when `media_dir` is truthy, then `tex_dir / file`. -/
def resolveImagePath (env : Env) (md : Option String) (td : String) (f : String) :
    Option String :=
  let fromMedia :=
    match md with
    | some d =>
      if d ≠ "" ∧ env.isFile (pathJoin d f) then some (pathJoin d f) else none
    | none => none
  match fromMedia with
  | some p => some p
  | none =>
    if env.isFile (pathJoin td f) then some (pathJoin td f) else none

/-- Modelled from the spec: the Image Resolver contract of spec section 4.1
in the spec's own words ("media_dir/filename if media_dir is provided and the
file exists there, else fallback_dir/filename, else NotFound"), for
comparison with the code's `resolveImagePath`. -/
def mediaProvidedHit (env : Env) (md : Option String) (f : String) : Bool :=
  match md with
  | some d => (!(d = "")) && env.isFile (pathJoin d f)
  | none => false

/-- Modelled from the spec: spec-shaped resolver (section 4.1). -/
def resolveSpec (env : Env) (md : Option String) (td : String) (f : String) :
    Option String :=
  if mediaProvidedHit env md f then some (pathJoin (md.getD "") f)
  else if env.isFile (pathJoin td f) then some (pathJoin td f)
  else none

/-- `convert_pdf_to_jpg` (source lines 36-55): run ImageMagick on the pdf;
on success the jpg path is the pdf path with suffix `.jpg`; on failure
return `None`.  The subprocess invocation is an event either way. -/
def convert_pdf_to_jpg (env : Env) (pdf_path : String) : Option String × List Ev :=
  (if env.convertOK pdf_path then some (withSuffixJpg pdf_path) else none,
   [Ev.magick pdf_path])

/-- `copy_image_to_html_dir` (source lines 23-34): `copyfile` the image to
`html_dir / name` and return that path, `None` on any error.  When the image
is already at that very path, `shutil.copyfile` raises `SameFileError`
before copying; the `except` catches it and the function returns `None`. -/
def copy_image_to_html_dir (env : Env) (image_path html_dir : String) :
    Option String × List Ev :=
  let dst := pathJoin html_dir (baseName image_path)
  if image_path = dst then (none, [])
  else if env.copyOK image_path dst then (some dst, [Ev.copyF image_path dst])
  else (none, [Ev.copyF image_path dst])

/-- Final step of `replace_placeholder` (source lines 112-120): with a truthy
`html_dir`, copy the image there and emit a tag with the copied name, keeping
the original span if the copy fails; otherwise emit a tag with the bare
basename of the image in place. -/
def placeAndTag (env : Env) (hd : Option String) (whole path : String)
    (evs : List Ev) : String × List Ev :=
  match hd with
  | some d =>
    if d = "" then (imgTagStr (baseName path), evs)
    else
      match copy_image_to_html_dir env path d with
      | (some copied, cevs) => (imgTagStr (baseName copied), evs ++ cevs)
      | (none, cevs) => (whole, evs ++ cevs)
  | none => (imgTagStr (baseName path), evs)

/-- `replace_placeholder` (source lines 80-120), acting on one placeholder
occurrence with capture groups `b`, `f`, `a`, `i`: resolve the referenced
file, keep the whole span on failure; transcode a pdf, keep the whole span
on failure; then place and tag. -/
def replace_placeholder (env : Env) (md : Option String) (td : String)
    (hd : Option String) (b f a i : String) : String × List Ev :=
  let whole := renderPH b f a i
  match resolveImagePath env md td f with
  | none => (whole, [])
  | some image_path =>
    if env.isFile image_path = false then (whole, [])
    else if suffixLower image_path = ".pdf" then
      match convert_pdf_to_jpg env image_path with
      | (some new_jpg, evs) =>
        if env.jpgIsFile new_jpg then placeAndTag env hd whole new_jpg evs
        else (whole, evs)
      | (none, evs) => (whole, evs)
    else placeAndTag env hd whole image_path []

/-- One piece of the document under `pattern.sub`: text passes through,
placeholders go through `replace_placeholder`. -/
def rewritePiece (env : Env) (md : Option String) (td : String)
    (hd : Option String) : HtmlPiece → String × List Ev
  | .text s => (s, [])
  | .ph b f a i => replace_placeholder env md td hd b f a i

/-- `replace_image_references_in_html` (source lines 57-123): `pattern.sub`
over the document, i.e. each placeholder occurrence replaced independently,
text in between untouched. -/
def replace_image_references_in_html (env : Env) (md : Option String)
    (td : String) (hd : Option String) (doc : List HtmlPiece) :
    String × List Ev :=
  doc.foldr
    (fun pc acc =>
      let r := rewritePiece env md td hd pc
      (r.1 ++ acc.1, r.2 ++ acc.2))
    ("", [])

/-- The image path `replace_placeholder` ends up tagging, `none` when any of
resolution, the `is_file` recheck, or pdf transcoding fails (the part of the
pipeline before placement). -/
def finalSource (env : Env) (md : Option String) (td : String) (f : String) :
    Option String :=
  match resolveImagePath env md td f with
  | none => none
  | some p =>
    if env.isFile p = false then none
    else if suffixLower p = ".pdf" then
      if env.convertOK p ∧ env.jpgIsFile (withSuffixJpg p) then
        some (withSuffixJpg p)
      else none
    else some p

/-- Whether placement into `d` succeeds for a source path `q`: the copy must
not be a self-copy (`SameFileError`) and `copyfile` must succeed. -/
def copyWinsB (env : Env) (q d : String) : Bool :=
  if q = pathJoin d (baseName q) then false
  else env.copyOK q (pathJoin d (baseName q))

/-- Whether the placement step fails for an image at `path` with debug
directory `hd` (no placement is attempted, hence none fails, without a
truthy `hd`). -/
def placeFailsB (env : Env) (hd : Option String) (path : String) : Bool :=
  match hd with
  | some d => if d = "" then false else !(copyWinsB env path d)
  | none => false

/-- Events emitted by the placement step. -/
def copyEvs (env : Env) (hd : Option String) (path : String) : List Ev :=
  match hd with
  | some d => if d = "" then [] else (copy_image_to_html_dir env path d).2
  | none => []

/-- Whether the whole per-reference pipeline fails for filename `f`, so that
the placeholder is left untouched. -/
def pipelineFails (env : Env) (md : Option String) (td : String)
    (hd : Option String) (f : String) : Bool :=
  match finalSource env md td f with
  | none => true
  | some q => placeFailsB env hd q

/-- Line 263 of the source applies `remove_multicols_html` to the chapter
HTML before the placeholder rewrite.  On the structured document this cleans
the text between placeholders; placeholder markup itself contains none of
the cleaned literals. -/
def cleanDoc (doc : List HtmlPiece) : List HtmlPiece :=
  doc.map fun pc =>
    match pc with
    | .text s => .text (remove_multicols_htmlS s)
    | .ph b f a i => .ph b f a i

/-- The media directory pandoc extracts into for `tex`, when requested
(source lines 138-141). -/
def mediaDirOpt (extract_media : Bool) (tex : String) : Option String :=
  if extract_media then some (strReplace tex ".tex" "_media") else none

/-- `convert_tex_to_html` (source lines 125-159): the pandoc invocation.
The output path is `tex_file.replace(".tex", ".html")`, the media directory
`tex_file.replace(".tex", "_media")` when extraction is requested; on a
failed invocation both results are `None`. -/
def convert_tex_to_html (env : Env) (tex : String) (extract_media debug : Bool) :
    (Option String × Option String) × List Ev :=
  let output_html := strReplace tex ".tex" ".html"
  let media_dir := mediaDirOpt extract_media tex
  if env.pandocOK tex then
    ((some output_html, media_dir),
     [Ev.pandoc tex] ++
       (if debug then [Ev.log ("Successfully converted " ++ tex ++ " to HTML.")] else []))
  else
    ((none, none),
     [Ev.pandoc tex] ++
       (if debug then [Ev.log ("Error converting " ++ tex ++ " to HTML.")] else []))

/-- A chapter as built on source lines 275-280. -/
structure Chapter where
  title : String
  fileName : String
  lang : String
  content : String
deriving DecidableEq

/-- Items accumulated into the ePub book. -/
inductive EpubItem where
  | chap (c : Chapter)
  | media (uid fileName mediaType : String)
  | ncx
  | nav
deriving DecidableEq

/-- File name of a media item, `none` for other items. -/
def itemFileName : EpubItem → Option String
  | .media _ f _ => some f
  | _ => none

/-- The ePub book accumulator (`epub.EpubBook`). -/
structure Book where
  identifier : String
  title : String
  language : String
  cover : Option String
  items : List EpubItem
  spine : List Chapter
deriving DecidableEq

/-- `add_media_to_epub` (source lines 161-179): when the media directory is
truthy and is a directory, register every file under it whose lowercased
suffix (dots stripped) is a recognized raster/vector extension, keyed by its
basename. -/
def add_media_to_epub (env : Env) (md : Option String) : List EpubItem :=
  match md with
  | none => []
  | some d =>
    if d = "" then []
    else if env.isDir d then
      (env.dirFiles d).filterMap fun f =>
        let suf := stripDots (suffixLower f)
        if ["jpg", "jpeg", "png", "gif", "svg"].contains suf then
          some (EpubItem.media (baseName f) (baseName f) ("image/" ++ suf))
        else none
    else []

/-- Per-material output of the loop body: items added to the book, chapters
appended to the spine, events performed. -/
structure LoopOut where
  items : List EpubItem
  spine : List Chapter
  events : List Ev
deriving DecidableEq

/-- Loop body of `convert_tex_to_epub` (source lines 229-288) for material
number `idx` (0-based).  A missing input file or a failed/absent pandoc
output skips the material; otherwise the HTML is (optionally renamed into
the debug directory,) read, cleaned, rewritten, and becomes chapter
`idx + 1`, followed by the extracted media when requested. -/
def processOne (env : Env) (em dbg : Bool) (hd : Option String) (idx : Nat)
    (tex : String) : LoopOut :=
  if env.isFile tex = false then
    ⟨[], [], if dbg then [Ev.log ("Warning: File " ++ tex ++ " not found. Skipping.")] else []⟩
  else
    match convert_tex_to_html env tex em dbg with
    | ((none, _), evs) =>
      ⟨[], [], evs ++ (if dbg then [Ev.log ("Warning: Failed to convert " ++ tex ++ " to HTML.")] else [])⟩
    | ((some html_file, media_dir), evs) =>
      if env.htmlProduced html_file = false then
        ⟨[], [], evs ++ (if dbg then [Ev.log ("Warning: Failed to convert " ++ tex ++ " to HTML.")] else [])⟩
      else
        let moved :=
          match hd with
          | some d =>
            if dbg then
              (pathJoin d (baseName html_file),
               [Ev.renameF html_file (pathJoin d (baseName html_file))])
            else (html_file, [])
          | none => (html_file, [])
        let content := env.htmlContent moved.1
        let cleaned := cleanDoc content
        let rew := replace_image_references_in_html env media_dir (pathParent tex) hd cleaned
        let ch : Chapter :=
          ⟨"Chapter " ++ toString (idx + 1),
           "chapter_" ++ toString (idx + 1) ++ ".xhtml", "en", rew.1⟩
        let mitems := if em then add_media_to_epub env media_dir else []
        ⟨[EpubItem.chap ch] ++ mitems, [ch],
         evs ++ moved.2 ++ [Ev.readF moved.1] ++ rew.2⟩

/-- The `for index, tex_file in enumerate(materials)` loop, accumulating
items, spine and events in order. -/
def processLoop (env : Env) (em dbg : Bool) (hd : Option String) :
    Nat → List String → LoopOut
  | _, [] => ⟨[], [], []⟩
  | idx, t :: ts =>
    let o1 := processOne env em dbg hd idx t
    let o2 := processLoop env em dbg hd (idx + 1) ts
    ⟨o1.items ++ o2.items, o1.spine ++ o2.spine, o1.events ++ o2.events⟩

/-- The parsed configuration JSON (source lines 190-194 with their
defaults). -/
structure Config where
  cover : Option String
  materials : List String
  template : Option String
  extractMedia : Bool
  debug : Bool
deriving DecidableEq

/-- Log-initialization events (source lines 199-204). -/
def dbgStartEvs (cfg : Config) : List Ev :=
  if cfg.debug then [Ev.log "Debugging enabled. Starting conversion."] else []

/-- Logged warning when the cover is absent (source lines 217-220). -/
def dbgCoverWarn (cfg : Config) : List Ev :=
  if cfg.debug then [Ev.log "Warning: Cover file not found."] else []

/-- The cover registered on the book: `cover.jpg` when a truthy cover path
exists (source lines 212-215). -/
def coverOf (env : Env) (cfg : Config) : Option String :=
  match cfg.cover with
  | some c => if c ≠ "" ∧ env.isFile c then some "cover.jpg" else none
  | none => none

/-- Events of the cover step: the cover file is read when present. -/
def coverEvsOf (env : Env) (cfg : Config) : List Ev :=
  match cfg.cover with
  | some c => if c ≠ "" ∧ env.isFile c then [Ev.readF c] else dbgCoverWarn cfg
  | none => dbgCoverWarn cfg

/-- The debug HTML directory, created only in debug mode (source lines
222-226). -/
def hdOf (config_path : String) (cfg : Config) : Option String :=
  if cfg.debug then some (stemOf config_path ++ "-html") else none

/-- Directory-creation events of the debug HTML directory step. -/
def mkdirEvs (config_path : String) (cfg : Config) : List Ev :=
  if cfg.debug then [Ev.mkdirE (stemOf config_path ++ "-html")] else []

/-- Events of writing the final ePub (source lines 294-300). -/
def finalWriteEvs (cfg : Config) : List Ev :=
  [Ev.writeEpubE "output.epub"] ++
    (if cfg.debug then [Ev.log "ePub file output.epub successfully generated."] else [])

/-- The non-aborting part of `convert_tex_to_epub` (source lines 199-300):
metadata, cover, optional debug directory, the material loop, navigation
items and the final write. -/
def runBody (env : Env) (config_path : String) (cfg : Config) : Book × List Ev :=
  let lo := processLoop env cfg.extractMedia cfg.debug (hdOf config_path cfg) 0 cfg.materials
  (⟨"id123456", "Generated ePub", "en", coverOf env cfg,
    lo.items ++ [EpubItem.ncx, EpubItem.nav], lo.spine⟩,
   dbgStartEvs cfg ++ coverEvsOf env cfg ++ mkdirEvs config_path cfg ++
     lo.events ++ finalWriteEvs cfg)

/-- `convert_tex_to_epub` (source lines 181-300) after the configuration has
been read: raise `ValueError` when no materials are specified (source lines
196-197), otherwise run the body and write `output.epub`.  Returns the
outcome and the ordered event trace. -/
def convert_tex_to_epub (env : Env) (config_path : String) (cfg : Config) :
    Except String Book × List Ev :=
  if cfg.materials = [] then
    (Except.error "No materials specified in the configuration file.", [])
  else
    (Except.ok (runBody env config_path cfg).1, (runBody env config_path cfg).2)

/-- Whether material `t` produces a chapter: the input exists, pandoc
succeeds and the output HTML file is present (source lines 230, 238, 245). -/
def succeedsB (env : Env) (t : String) : Bool :=
  env.isFile t && env.pandocOK t && env.htmlProduced (strReplace t ".tex" ".html")

/-- Spine file names of a run outcome ([] for an aborted run). -/
def spineNamesOf : Except String Book → List String
  | .ok b => b.spine.map fun c => c.fileName
  | .error _ => []

/-- Spine titles of a run outcome. -/
def spineTitlesOf : Except String Book → List String
  | .ok b => b.spine.map fun c => c.title
  | .error _ => []

/-- Chapter bodies of a run outcome. -/
def chapterBodiesOf : Except String Book → List String
  | .ok b => b.spine.map fun c => c.content
  | .error _ => []

/-- File names of the media assets of a run outcome. -/
def mediaNamesOf : Except String Book → List String
  | .ok b => b.items.filterMap itemFileName
  | .error _ => []

/-- Whether a run outcome is a completed run. -/
def isOkE : Except String Book → Bool
  | .ok _ => true
  | .error _ => false

/-- Directory-creation events. -/
def isMkdirEv : Ev → Bool
  | .mkdirE _ => true
  | _ => false

/-- A world in which nothing exists and every child process fails. -/
def env0 : Env where
  isFile := fun _ => false
  isDir := fun _ => false
  pandocOK := fun _ => false
  htmlProduced := fun _ => false
  htmlContent := fun _ => []
  convertOK := fun _ => false
  jpgIsFile := fun _ => false
  copyOK := fun _ _ => false
  dirFiles := fun _ => []

/-- A world in which every `copyfile` call succeeds (the non-self-copy
ones: `SameFileError` is not up to the oracle). -/
def envAllOK : Env :=
  { env0 with copyOK := fun _ _ => true }

/-- The body a successful material's chapter receives: the (possibly
debug-relocated) pandoc HTML, cleaned and rewritten. -/
def chapterBodyOf (env : Env) (em dbg : Bool) (hd : Option String) (t : String) :
    String :=
  let html_file := strReplace t ".tex" ".html"
  let moved :=
    match hd with
    | some d =>
      if dbg then
        (pathJoin d (baseName html_file),
         [Ev.renameF html_file (pathJoin d (baseName html_file))])
      else (html_file, ([] : List Ev))
    | none => (html_file, ([] : List Ev))
  (replace_image_references_in_html env (mediaDirOpt em t) (pathParent t) hd
    (cleanDoc (env.htmlContent moved.1))).1

/-- The chapter a successful material number `idx` (0-based) produces. -/
def mkChapter (env : Env) (em dbg : Bool) (hd : Option String) (idx : Nat)
    (t : String) : Chapter :=
  ⟨"Chapter " ++ toString (idx + 1),
   "chapter_" ++ toString (idx + 1) ++ ".xhtml", "en",
   chapterBodyOf env em dbg hd t⟩

/-- Configuration whose first material is missing and second converts. -/
def cfg1 : Config := ⟨none, ["book/a.tex", "book/b.tex"], none, false, false⟩

/-- World for `cfg1`: only `book/b.tex` exists; pandoc always succeeds. -/
def env1 : Env :=
  { env0 with
    isFile := fun s => s == "book/b.tex"
    pandocOK := fun _ => true
    htmlProduced := fun _ => true }

/-- Configuration for the `diagram.pdf` scenario: one material, media
extraction on, debug off. -/
def cfg3 : Config := ⟨none, ["book/doc.tex"], none, true, false⟩

/-- World for `cfg3`: the source and `book/diagram.pdf` exist (the pdf only
in the source directory), conversion and transcoding succeed, the chapter
HTML is a single placeholder referencing `diagram.pdf`, and the pandoc media
directory was never created. -/
def env3 : Env :=
  { env0 with
    isFile := fun s => s == "book/doc.tex" || s == "book/diagram.pdf"
    pandocOK := fun _ => true
    htmlProduced := fun _ => true
    htmlContent := fun _ => [HtmlPiece.ph " " "diagram.pdf" " " "image"]
    convertOK := fun _ => true
    jpgIsFile := fun _ => true }

/-- Configuration with no materials. -/
def cfgEmpty : Config := ⟨none, [], none, false, false⟩

/-- A non-multicols opening div tag, for exercising the layout cleaner on
divs unrelated to the multi-column feature. -/
def openNM : List Char := "<div class=\"notmulticols\">".toList

/-- Input on which the layout cleaner is not idempotent: removing the inner
`</div>` splices the surrounding text into a new `</div>`. -/
def cexC5 : List Char := "</di</div>v>".toList

/-- A benign input for the idempotence witness. -/
def wC5 : List Char := "<p>ok</p>".toList

/-- Concrete `<`-free div body. -/
def wB1 : List Char := "Hello ".toList

/-- Concrete `<`-free div body. -/
def wB2 : List Char := "world".toList

/-! ## Lemmas about the substitution core -/

theorem repF_irrel (p r : List Char) :
    ∀ (n m : Nat) (s : List Char), s.length ≤ n → s.length ≤ m →
      repF p r n s = repF p r m s := by
  intro n
  induction n with
  | zero =>
    intro m s hn _
    have hs : s = [] := by
      cases s with
      | nil => rfl
      | cons c cs => simp at hn
    subst hs
    cases m <;> rfl
  | succ n ih =>
    intro m s hn hm
    cases s with
    | nil => cases m <;> rfl
    | cons c cs =>
      cases m with
      | zero => simp at hm
      | succ m =>
        simp only [List.length_cons] at hn hm
        simp only [repF]
        by_cases h : p ≠ [] ∧ p.isPrefixOf (c :: cs)
        · simp only [if_pos h]
          have hp : 0 < p.length := List.length_pos.mpr h.1
          have hlen : ((c :: cs).drop p.length).length = cs.length + 1 - p.length := by
            simp [List.length_drop]
          congr 1
          exact ih m _ (by omega) (by omega)
        · simp only [if_neg h]
          congr 1
          exact ih m cs (by omega) (by omega)

theorem replaceAll_nil (p r : List Char) : replaceAll p r [] = [] := rfl

theorem replaceAll_cons (p r : List Char) (c : Char) (cs : List Char) :
    replaceAll p r (c :: cs) =
      if p ≠ [] ∧ p.isPrefixOf (c :: cs) then
        r ++ replaceAll p r ((c :: cs).drop p.length)
      else c :: replaceAll p r cs := by
  unfold replaceAll
  simp only [List.length_cons, repF]
  by_cases h : p ≠ [] ∧ p.isPrefixOf (c :: cs)
  · simp only [if_pos h]
    have hp : 0 < p.length := List.length_pos.mpr h.1
    have hlen : ((c :: cs).drop p.length).length = cs.length + 1 - p.length := by
      simp [List.length_drop]
    congr 1
    exact repF_irrel p r cs.length _ _ (by omega) (by omega)
  · simp only [if_neg h]

theorem isPrefixOf_eq_false_of_clash :
    ∀ (p w : List Char), clash p w = true → ∀ z, p.isPrefixOf (w ++ z) = false := by
  intro p
  induction p with
  | nil => intro w h z; cases w <;> simp [clash] at h
  | cons a p ih =>
    intro w h z
    cases w with
    | nil => simp [clash] at h
    | cons b w' =>
      simp only [clash, Bool.or_eq_true, bne_iff_ne] at h
      rcases h with h | h
      · have hb : (a == b) = false := beq_eq_false_iff_ne.mpr h
        simp [List.isPrefixOf, hb]
      · have := ih w' h z
        simp [List.isPrefixOf, this]

theorem scanOK_of_allClash (p : List Char) :
    ∀ (u rest : List Char), allClash p u = true → scanOK p rest u = true := by
  intro u
  induction u with
  | nil => intro rest _; rfl
  | cons c u ih =>
    intro rest h
    simp only [allClash, Bool.and_eq_true] at h
    have h1 : p.isPrefixOf ((c :: u) ++ rest) = false :=
      isPrefixOf_eq_false_of_clash p (c :: u) h.1 rest
    simp only [List.cons_append] at h1
    simp [scanOK, h1, ih rest h.2]

theorem scanOK_of_headFree (hc : Char) (p : List Char) (hp : p.head? = some hc) :
    ∀ (u rest : List Char), (∀ c ∈ u, c ≠ hc) → scanOK p rest u = true := by
  intro u
  induction u with
  | nil => intro rest _; rfl
  | cons c u ih =>
    intro rest h
    obtain ⟨a, p', rfl⟩ : ∃ a p', p = a :: p' := by
      cases p with
      | nil => simp at hp
      | cons a p' => exact ⟨a, p', rfl⟩
    have ha : a = hc := by simpa using hp
    have hcne : c ≠ hc := h c (by simp)
    have hab : (a == c) = false := by
      refine beq_eq_false_iff_ne.mpr ?_
      rw [ha]
      exact fun hcc => hcne hcc.symm
    have h1 : (a :: p').isPrefixOf (c :: (u ++ rest)) = false := by
      simp [List.isPrefixOf, hab]
    simp only [scanOK, h1, Bool.not_false, Bool.true_and]
    exact ih rest fun x hx => h x (by simp [hx])

theorem scanOK_append (p : List Char) :
    ∀ (u v rest : List Char), scanOK p (v ++ rest) u = true →
      scanOK p rest v = true → scanOK p rest (u ++ v) = true := by
  intro u
  induction u with
  | nil => intro v rest _ h2; simpa using h2
  | cons c u ih =>
    intro v rest h1 h2
    simp only [scanOK, Bool.and_eq_true, Bool.not_eq_true'] at h1
    have hpre : p.isPrefixOf (c :: ((u ++ v) ++ rest)) = false := by
      rw [List.append_assoc]
      exact h1.1
    rw [List.cons_append]
    simp only [scanOK, Bool.and_eq_true, Bool.not_eq_true']
    exact ⟨hpre, ih v rest h1.2 h2⟩

theorem scanOK_nil (p rest : List Char) : scanOK p rest [] = true := rfl

theorem replaceAll_skip (p r : List Char) :
    ∀ (u rest : List Char), scanOK p rest u = true →
      replaceAll p r (u ++ rest) = u ++ replaceAll p r rest := by
  intro u
  induction u with
  | nil => intro rest _; rfl
  | cons c u ih =>
    intro rest h
    simp only [scanOK, Bool.and_eq_true, Bool.not_eq_true'] at h
    rw [List.cons_append, replaceAll_cons]
    rw [if_neg fun hcon => by rw [h.1] at hcon; exact Bool.noConfusion hcon.2]
    rw [ih rest h.2]
    rfl

theorem isPrefixOf_append_self : ∀ (p v : List Char), p.isPrefixOf (p ++ v) = true := by
  intro p v
  induction p with
  | nil => simp [List.isPrefixOf]
  | cons a p ih => simp [List.isPrefixOf, ih]

theorem replaceAll_consume (p r v : List Char) (hp : p ≠ []) :
    replaceAll p r (p ++ v) = r ++ replaceAll p r v := by
  obtain ⟨a, p', rfl⟩ : ∃ a p', p = a :: p' := by
    cases p with
    | nil => exact absurd rfl hp
    | cons a p' => exact ⟨a, p', rfl⟩
  rw [List.cons_append, replaceAll_cons]
  rw [if_pos ⟨by simp, by rw [← List.cons_append]; exact isPrefixOf_append_self _ v⟩]
  congr 1
  rw [← List.cons_append, List.drop_left]

theorem replaceAll_id (p r s : List Char) (h : scanOK p [] s = true) :
    replaceAll p r s = s := by
  have h2 := replaceAll_skip p r s [] h
  simp only [List.append_nil, replaceAll_nil] at h2
  exact h2

theorem isPrefixOf_length_le :
    ∀ (p s : List Char), p.isPrefixOf s = true → p.length ≤ s.length := by
  intro p
  induction p with
  | nil => intro s _; simp
  | cons a p ih =>
    intro s h
    cases s with
    | nil => simp [List.isPrefixOf] at h
    | cons b s =>
      simp only [List.isPrefixOf, Bool.and_eq_true] at h
      simpa using ih s h.2

theorem matchMarker_length {s rest : List Char} (h : matchMarker s = some rest) :
    rest.length + 9 ≤ s.length := by
  unfold matchMarker at h
  by_cases h1 : markHeadL.isPrefixOf s
  · rw [if_pos h1] at h
    simp only at h
    by_cases h2 : (s.drop 9).takeWhile Char.isDigit ≠ [] ∧
        markTailL.isPrefixOf ((s.drop 9).dropWhile Char.isDigit)
    · rw [if_pos h2] at h
      have hrest : rest = ((s.drop 9).dropWhile Char.isDigit).drop 11 := by
        injection h with h
        exact h.symm
      have hlen9 : 9 ≤ s.length := by
        have := isPrefixOf_length_le markHeadL s h1
        simpa [markHeadL] using this
      have hdw : ((s.drop 9).dropWhile Char.isDigit).length ≤ (s.drop 9).length :=
        (List.dropWhile_sublist _).length_le
      have hd9 : (s.drop 9).length = s.length - 9 := List.length_drop 9 s
      have hr : rest.length = ((s.drop 9).dropWhile Char.isDigit).length - 11 := by
        rw [hrest, List.length_drop]
      omega
    · rw [if_neg h2] at h
      exact absurd h (by simp)
  · rw [if_neg h1] at h
    exact absurd h (by simp)

theorem remMarkF_irrel :
    ∀ (n m : Nat) (s : List Char), s.length ≤ n → s.length ≤ m →
      remMarkF n s = remMarkF m s := by
  intro n
  induction n with
  | zero =>
    intro m s hn _
    have hs : s = [] := by
      cases s with
      | nil => rfl
      | cons c cs => simp at hn
    subst hs
    cases m <;> rfl
  | succ n ih =>
    intro m s hn hm
    cases s with
    | nil => cases m <;> rfl
    | cons c cs =>
      cases m with
      | zero => simp at hm
      | succ m =>
        simp only [List.length_cons] at hn hm
        simp only [remMarkF]
        cases hmk : matchMarker (c :: cs) with
        | some rest =>
          have hr := matchMarker_length hmk
          simp only [List.length_cons] at hr
          show remMarkF n rest = remMarkF m rest
          exact ih m rest (by omega) (by omega)
        | none =>
          show c :: remMarkF n cs = c :: remMarkF m cs
          rw [ih m cs (by omega) (by omega)]

theorem removeMarkers_cons (c : Char) (cs : List Char) :
    removeMarkers (c :: cs) =
      match matchMarker (c :: cs) with
      | some rest => removeMarkers rest
      | none => c :: removeMarkers cs := by
  unfold removeMarkers
  simp only [List.length_cons, remMarkF]
  cases hmk : matchMarker (c :: cs) with
  | some rest =>
    have := matchMarker_length hmk
    simp only [List.length_cons] at this
    exact remMarkF_irrel cs.length rest.length rest (by omega) (le_refl _)
  | none => rfl

theorem matchMarker_eq_none (s : List Char) (h : markHeadL.isPrefixOf s = false) :
    matchMarker s = none := by
  unfold matchMarker
  simp [h]

theorem removeMarkers_id :
    ∀ (s : List Char), scanOK markHeadL [] s = true → removeMarkers s = s := by
  intro s
  induction s with
  | nil => intro _; rfl
  | cons c cs ih =>
    intro h
    simp only [scanOK, Bool.and_eq_true, Bool.not_eq_true'] at h
    have h1 : markHeadL.isPrefixOf (c :: cs) = false := by
      have := h.1
      simpa using this
    rw [removeMarkers_cons, matchMarker_eq_none _ h1]
    rw [ih h.2]

/-! ## Claims C5 and C9: the layout cleaner -/

/-- Claim C5, counterexample: layout cleaning is not idempotent.  On
`"</di</div>v>"` the single-pass removal of the inner `</div>` splices the
remaining characters into a new `</div>` (`clean` gives `"</div>"`), which a
second application removes (giving `""`). -/
theorem C5_counterexample :
    remove_multicols_html (remove_multicols_html cexC5) ≠ remove_multicols_html cexC5 := by
  decide

/-- Claim C5, amended: layout cleaning is idempotent on every HTML string
whose cleaned form has no residual occurrence of the multicols opening tag,
of `</div>`, or of the head of a numbered-marker paragraph; in general a
removal can splice together a new occurrence, and then cleaning twice
differs from cleaning once. -/
theorem C5_amended (h : List Char)
    (h1 : scanOK divOpenL [] (remove_multicols_html h) = true)
    (h2 : scanOK closeDivL [] (remove_multicols_html h) = true)
    (h3 : scanOK markHeadL [] (remove_multicols_html h) = true) :
    remove_multicols_html (remove_multicols_html h) = remove_multicols_html h := by
  show removeMarkers (replaceAll closeDivL []
      (replaceAll divOpenL [] (remove_multicols_html h))) = remove_multicols_html h
  rw [replaceAll_id _ _ _ h1, replaceAll_id _ _ _ h2, removeMarkers_id _ h3]

/-- Claim C5, witness: the amended idempotence at a concrete input. -/
theorem C5_witness :
    scanOK divOpenL [] (remove_multicols_html wC5) = true ∧
    scanOK closeDivL [] (remove_multicols_html wC5) = true ∧
    scanOK markHeadL [] (remove_multicols_html wC5) = true ∧
    remove_multicols_html (remove_multicols_html wC5) = remove_multicols_html wC5 :=
  ⟨by decide, by decide, by decide, C5_amended wC5 (by decide) (by decide) (by decide)⟩

/-- Claim C9: the layout cleaner removes every `</div>` regardless of which
div it closes: for any `<`-free bodies, a non-multicols div loses its closing
tag (and so does every further `</div>`), while its opening tag and the
bodies pass through unchanged. -/
theorem C9_thm (b1 b2 : List Char) (hb1 : ∀ c ∈ b1, c ≠ '<') (hb2 : ∀ c ∈ b2, c ≠ '<') :
    remove_multicols_html (openNM ++ b1 ++ closeDivL ++ b2 ++ closeDivL) =
      openNM ++ b1 ++ b2 := by
  have sc_b1_div : ∀ rest, scanOK divOpenL rest b1 = true := fun rest =>
    scanOK_of_headFree '<' divOpenL rfl b1 rest hb1
  have sc_b2_div : ∀ rest, scanOK divOpenL rest b2 = true := fun rest =>
    scanOK_of_headFree '<' divOpenL rfl b2 rest hb2
  have sc_b1_close : ∀ rest, scanOK closeDivL rest b1 = true := fun rest =>
    scanOK_of_headFree '<' closeDivL rfl b1 rest hb1
  have sc_b2_close : ∀ rest, scanOK closeDivL rest b2 = true := fun rest =>
    scanOK_of_headFree '<' closeDivL rfl b2 rest hb2
  have sc_b1_mark : ∀ rest, scanOK markHeadL rest b1 = true := fun rest =>
    scanOK_of_headFree '<' markHeadL rfl b1 rest hb1
  have sc_b2_mark : ∀ rest, scanOK markHeadL rest b2 = true := fun rest =>
    scanOK_of_headFree '<' markHeadL rfl b2 rest hb2
  have s1 : scanOK divOpenL []
      (openNM ++ (b1 ++ (closeDivL ++ (b2 ++ closeDivL)))) = true := by
    apply scanOK_append _ openNM
    · exact scanOK_of_allClash divOpenL openNM _ (by decide)
    apply scanOK_append _ b1
    · exact sc_b1_div _
    apply scanOK_append _ closeDivL
    · exact scanOK_of_allClash divOpenL closeDivL _ (by decide)
    apply scanOK_append _ b2
    · exact sc_b2_div _
    exact scanOK_of_allClash divOpenL closeDivL _ (by decide)
  have st2 : replaceAll closeDivL []
      (openNM ++ (b1 ++ (closeDivL ++ (b2 ++ closeDivL)))) = openNM ++ (b1 ++ b2) := by
    have e1 := replaceAll_skip closeDivL [] openNM
      (b1 ++ (closeDivL ++ (b2 ++ closeDivL)))
      (scanOK_of_allClash closeDivL openNM _ (by decide))
    have e2 := replaceAll_skip closeDivL [] b1 (closeDivL ++ (b2 ++ closeDivL))
      (sc_b1_close _)
    have e3 := replaceAll_consume closeDivL [] (b2 ++ closeDivL) (by decide)
    have e4 := replaceAll_skip closeDivL [] b2 closeDivL (sc_b2_close _)
    have e5 : replaceAll closeDivL [] closeDivL = [] := by
      have := replaceAll_consume closeDivL [] [] (by decide)
      simpa using this
    rw [e1, e2, e3, e4, e5]
    simp
  have s3 : scanOK markHeadL [] (openNM ++ (b1 ++ b2)) = true := by
    apply scanOK_append _ openNM
    · exact scanOK_of_allClash markHeadL openNM _ (by decide)
    apply scanOK_append _ b1
    · exact sc_b1_mark _
    exact sc_b2_mark _
  show removeMarkers (replaceAll closeDivL [] (replaceAll divOpenL []
      (openNM ++ b1 ++ closeDivL ++ b2 ++ closeDivL))) = openNM ++ b1 ++ b2
  simp only [List.append_assoc]
  rw [replaceAll_id _ _ _ s1, st2, removeMarkers_id _ s3]

/-- Claim C9, witness: the cleaner on a concrete non-multicols div. -/
theorem C9_witness :
    (wB1.all fun c => c != '<') = true ∧ (wB2.all fun c => c != '<') = true ∧
    remove_multicols_html (openNM ++ wB1 ++ closeDivL ++ wB2 ++ closeDivL) =
      openNM ++ wB1 ++ wB2 :=
  ⟨by decide, by decide, C9_thm wB1 wB2 (by decide) (by decide)⟩

/-! ## Lemmas about the placeholder rewriter -/

theorem resolve_isFile (env : Env) (md : Option String) (td : String) (f p : String)
    (h : resolveImagePath env md td f = some p) : env.isFile p = true := by
  unfold resolveImagePath at h
  cases md with
  | none =>
    simp only at h
    by_cases ht : env.isFile (pathJoin td f) = true
    · rw [if_pos ht] at h
      injection h with h
      rw [← h]
      exact ht
    · rw [if_neg ht] at h
      exact absurd h (by simp)
  | some d =>
    by_cases hm : d ≠ "" ∧ env.isFile (pathJoin d f)
    · simp only [if_pos hm] at h
      injection h with h
      rw [← h]
      exact hm.2
    · simp only [if_neg hm] at h
      by_cases ht : env.isFile (pathJoin td f) = true
      · rw [if_pos ht] at h
        injection h with h
        rw [← h]
        exact ht
      · rw [if_neg ht] at h
        exact absurd h (by simp)

theorem placeFailsB_none (env : Env) (path : String) :
    placeFailsB env none path = false := rfl

theorem placeFailsB_some (env : Env) (d path : String) :
    placeFailsB env (some d) path =
      if d = "" then false else !(copyWinsB env path d) := rfl

theorem copy_img_same (env : Env) (path d : String)
    (hsame : path = pathJoin d (baseName path)) :
    copy_image_to_html_dir env path d = (none, []) := by
  unfold copy_image_to_html_dir
  rw [if_pos hsame]

theorem copy_img_ok (env : Env) (path d : String)
    (hsame : ¬ path = pathJoin d (baseName path))
    (hok : env.copyOK path (pathJoin d (baseName path)) = true) :
    copy_image_to_html_dir env path d =
      (some (pathJoin d (baseName path)),
       [Ev.copyF path (pathJoin d (baseName path))]) := by
  unfold copy_image_to_html_dir
  rw [if_neg hsame, if_pos hok]

theorem copy_img_bad (env : Env) (path d : String)
    (hsame : ¬ path = pathJoin d (baseName path))
    (hok : env.copyOK path (pathJoin d (baseName path)) = false) :
    copy_image_to_html_dir env path d =
      (none, [Ev.copyF path (pathJoin d (baseName path))]) := by
  unfold copy_image_to_html_dir
  rw [if_neg hsame, hok]
  simp

theorem placeAndTag_fst_irrel (env : Env) (hd : Option String)
    (whole path : String) (evs : List Ev) :
    (placeAndTag env hd whole path evs).1 = (placeAndTag env hd whole path []).1 := by
  cases hd with
  | none => rfl
  | some d =>
    by_cases hde : d = ""
    · simp [placeAndTag, hde]
    · by_cases hsame : path = pathJoin d (baseName path)
      · simp [placeAndTag, hde, copy_img_same env path d hsame]
      · by_cases hok : env.copyOK path (pathJoin d (baseName path))
        · simp [placeAndTag, hde, copy_img_ok env path d hsame hok]
        · have hok' : env.copyOK path (pathJoin d (baseName path)) = false := by
            simpa using hok
          simp [placeAndTag, hde, copy_img_bad env path d hsame hok']

theorem placeAndTag_snd (env : Env) (hd : Option String)
    (whole path : String) (evs : List Ev) :
    (placeAndTag env hd whole path evs).2 = evs ++ copyEvs env hd path := by
  cases hd with
  | none => simp [placeAndTag, copyEvs]
  | some d =>
    by_cases hde : d = ""
    · simp [placeAndTag, copyEvs, hde]
    · by_cases hsame : path = pathJoin d (baseName path)
      · simp [placeAndTag, copyEvs, hde, copy_img_same env path d hsame]
      · by_cases hok : env.copyOK path (pathJoin d (baseName path))
        · simp [placeAndTag, copyEvs, hde, copy_img_ok env path d hsame hok]
        · have hok' : env.copyOK path (pathJoin d (baseName path)) = false := by
            simpa using hok
          simp [placeAndTag, copyEvs, hde, copy_img_bad env path d hsame hok']

theorem placeAndTag_fail (env : Env) (hd : Option String) (whole path : String)
    (evs : List Ev) (h : placeFailsB env hd path = true) :
    (placeAndTag env hd whole path evs).1 = whole := by
  cases hd with
  | none => rw [placeFailsB_none] at h; exact absurd h (by simp)
  | some d =>
    rw [placeFailsB_some] at h
    by_cases hde : d = ""
    · rw [if_pos hde] at h
      exact absurd h (by simp)
    · rw [if_neg hde] at h
      have hcw : copyWinsB env path d = false := by
        cases hcw2 : copyWinsB env path d
        · rfl
        · rw [hcw2] at h
          exact absurd h (by simp)
      unfold copyWinsB at hcw
      by_cases hsame : path = pathJoin d (baseName path)
      · simp [placeAndTag, hde, copy_img_same env path d hsame]
      · rw [if_neg hsame] at hcw
        simp [placeAndTag, hde, copy_img_bad env path d hsame hcw]

theorem rp_fst (env : Env) (md : Option String) (td : String) (hd : Option String)
    (b f a i : String) :
    (replace_placeholder env md td hd b f a i).1 =
      match finalSource env md td f with
      | none => renderPH b f a i
      | some q => (placeAndTag env hd (renderPH b f a i) q []).1 := by
  unfold replace_placeholder finalSource
  cases hres : resolveImagePath env md td f with
  | none => simp
  | some p =>
    simp only
    by_cases hisf : env.isFile p = false
    · simp [hisf]
    · rw [if_neg hisf, if_neg hisf]
      by_cases hpdf : suffixLower p = ".pdf"
      · rw [if_pos hpdf, if_pos hpdf]
        by_cases hc : env.convertOK p
        · by_cases hj : env.jpgIsFile (withSuffixJpg p)
          · rw [if_pos ⟨hc, hj⟩]
            simp only [convert_pdf_to_jpg, hc, if_pos, if_pos hj]
            exact placeAndTag_fst_irrel env hd _ _ _
          · rw [if_neg fun hcon => hj hcon.2]
            simp [convert_pdf_to_jpg, hc, hj]
        · rw [if_neg fun hcon => hc hcon.1]
          simp [convert_pdf_to_jpg, hc]
      · rw [if_neg hpdf, if_neg hpdf]

theorem rp_snd (env : Env) (md : Option String) (td : String) (hd : Option String)
    (b f a i : String) :
    (replace_placeholder env md td hd b f a i).2 =
      match resolveImagePath env md td f with
      | none => []
      | some p =>
        if env.isFile p = false then []
        else if suffixLower p = ".pdf" then
          if env.convertOK p then
            if env.jpgIsFile (withSuffixJpg p) then
              Ev.magick p :: copyEvs env hd (withSuffixJpg p)
            else [Ev.magick p]
          else [Ev.magick p]
        else copyEvs env hd p := by
  unfold replace_placeholder
  cases hres : resolveImagePath env md td f with
  | none => simp
  | some p =>
    simp only
    by_cases hisf : env.isFile p = false
    · simp [hisf]
    · rw [if_neg hisf, if_neg hisf]
      by_cases hpdf : suffixLower p = ".pdf"
      · rw [if_pos hpdf, if_pos hpdf]
        by_cases hc : env.convertOK p
        · by_cases hj : env.jpgIsFile (withSuffixJpg p)
          · simp only [convert_pdf_to_jpg, hc, if_pos, if_pos hj]
            rw [placeAndTag_snd]
            simp
          · simp [convert_pdf_to_jpg, hc, hj]
        · simp [convert_pdf_to_jpg, hc]
      · rw [if_neg hpdf, if_neg hpdf]
        rw [placeAndTag_snd]
        simp

theorem pipelineFails_none (env : Env) (md : Option String) (td : String)
    (hd : Option String) (f : String) (h : finalSource env md td f = none) :
    pipelineFails env md td hd f = true := by
  unfold pipelineFails
  rw [h]

theorem pipelineFails_some (env : Env) (md : Option String) (td : String)
    (hd : Option String) (f q : String) (h : finalSource env md td f = some q) :
    pipelineFails env md td hd f = placeFailsB env hd q := by
  unfold pipelineFails
  rw [h]

theorem fail_renders (env : Env) (md : Option String) (td : String)
    (hd : Option String) (b f a i : String)
    (hf : pipelineFails env md td hd f = true) :
    (replace_placeholder env md td hd b f a i).1 = renderPH b f a i := by
  cases hfs : finalSource env md td f with
  | none => rw [rp_fst, hfs]
  | some q =>
    rw [pipelineFails_some env md td hd f q hfs] at hf
    rw [rp_fst, hfs]
    exact placeAndTag_fail env hd _ _ _ hf

theorem pipelineFails_of_resolve_none (env : Env) (md : Option String)
    (td : String) (hd : Option String) (f : String)
    (h : resolveImagePath env md td f = none) :
    pipelineFails env md td hd f = true := by
  apply pipelineFails_none
  unfold finalSource
  rw [h]

theorem success_tag (env : Env) (md : Option String) (td : String)
    (b f a i q : String) (h : finalSource env md td f = some q) :
    (replace_placeholder env md td none b f a i).1 = imgTagStr (baseName q) := by
  rw [rp_fst, h]
  rfl

theorem copyEvs_no_write (env : Env) (hd : Option String) (path : String) :
    ((copyEvs env hd path).all fun e => !(isWriteE e)) = true := by
  cases hd with
  | none => rfl
  | some d =>
    by_cases hde : d = ""
    · simp [copyEvs, hde]
    · by_cases hsame : path = pathJoin d (baseName path)
      · simp [copyEvs, hde, copy_img_same env path d hsame]
      · by_cases hok : env.copyOK path (pathJoin d (baseName path))
        · simp [copyEvs, hde, copy_img_ok env path d hsame hok, isWriteE]
        · have hok' : env.copyOK path (pathJoin d (baseName path)) = false := by
            simpa using hok
          simp [copyEvs, hde, copy_img_bad env path d hsame hok', isWriteE]

theorem rp_events_no_place (env : Env) (md : Option String) (td : String)
    (b f a i : String) :
    ((replace_placeholder env md td none b f a i).2).all
      (fun e => !(isPlacementEv e)) = true := by
  rw [rp_snd]
  cases hres : resolveImagePath env md td f with
  | none => rfl
  | some p =>
    simp only
    by_cases hisf : env.isFile p = false
    · simp [hisf]
    · rw [if_neg hisf]
      by_cases hpdf : suffixLower p = ".pdf"
      · rw [if_pos hpdf]
        by_cases hc : env.convertOK p
        · by_cases hj : env.jpgIsFile (withSuffixJpg p)
          · simp [hc, hj, copyEvs, isPlacementEv]
          · simp [hc, hj, isPlacementEv]
        · simp [hc, isPlacementEv]
      · rw [if_neg hpdf]
        simp [copyEvs]

theorem rp_events_no_write (env : Env) (md : Option String) (td : String)
    (hd : Option String) (b f a i : String) :
    ((replace_placeholder env md td hd b f a i).2).all
      (fun e => !(isWriteE e)) = true := by
  rw [rp_snd]
  cases hres : resolveImagePath env md td f with
  | none => rfl
  | some p =>
    simp only
    by_cases hisf : env.isFile p = false
    · simp [hisf]
    · rw [if_neg hisf]
      by_cases hpdf : suffixLower p = ".pdf"
      · rw [if_pos hpdf]
        by_cases hc : env.convertOK p
        · by_cases hj : env.jpgIsFile (withSuffixJpg p)
          · rw [if_pos hc, if_pos hj, List.all_cons]
            exact by
              rw [copyEvs_no_write env hd (withSuffixJpg p)]
              rfl
          · simp [hc, hj, isWriteE]
        · simp [hc, isWriteE]
      · rw [if_neg hpdf]
        exact copyEvs_no_write env hd p

theorem rewrite_nil (env : Env) (md : Option String) (td : String)
    (hd : Option String) :
    replace_image_references_in_html env md td hd [] = ("", []) := rfl

theorem rewrite_cons (env : Env) (md : Option String) (td : String)
    (hd : Option String) (pc : HtmlPiece) (doc : List HtmlPiece) :
    replace_image_references_in_html env md td hd (pc :: doc) =
      ((rewritePiece env md td hd pc).1 ++
         (replace_image_references_in_html env md td hd doc).1,
       (rewritePiece env md td hd pc).2 ++
         (replace_image_references_in_html env md td hd doc).2) := rfl

theorem rewrite_append (env : Env) (md : Option String) (td : String)
    (hd : Option String) (xs ys : List HtmlPiece) :
    replace_image_references_in_html env md td hd (xs ++ ys) =
      ((replace_image_references_in_html env md td hd xs).1 ++
         (replace_image_references_in_html env md td hd ys).1,
       (replace_image_references_in_html env md td hd xs).2 ++
         (replace_image_references_in_html env md td hd ys).2) := by
  induction xs with
  | nil => simp [rewrite_nil]
  | cons pc xs ih =>
    rw [List.cons_append, rewrite_cons, ih, rewrite_cons]
    rw [String.append_assoc, List.append_assoc]

/-! ## Claims C2, C4, C6 -/

/-- Claim C2: a per-reference failure (resolution, transcoding or copying)
leaves that occurrence's original markup byte-identical and the rest of the
document is rewritten exactly as it would be on its own; in particular an
image reference found in neither the media directory nor the source
directory fails the pipeline, so its placeholder passes through unchanged. -/
theorem C2_thm (env : Env) (md : Option String) (td : String) (hd : Option String)
    (b f a i : String) (pre post : List HtmlPiece) :
    (pipelineFails env md td hd f = true →
      (replace_image_references_in_html env md td hd
          (pre ++ HtmlPiece.ph b f a i :: post)).1 =
        (replace_image_references_in_html env md td hd pre).1 ++ renderPH b f a i ++
          (replace_image_references_in_html env md td hd post).1) ∧
    (resolveImagePath env md td f = none → pipelineFails env md td hd f = true) := by
  constructor
  · intro hf
    rw [rewrite_append, rewrite_cons]
    simp only
    rw [show (rewritePiece env md td hd (HtmlPiece.ph b f a i)).1 =
          renderPH b f a i from fail_renders env md td hd b f a i hf]
    rw [String.append_assoc]
  · exact pipelineFails_of_resolve_none env md td hd f

/-- Claim C2, witness: a placeholder whose file exists nowhere passes
through byte-identically between two text pieces. -/
theorem C2_witness :
    pipelineFails env0 none "book" none "missing.png" = true ∧
    resolveImagePath env0 none "book" "missing.png" = none ∧
    (replace_image_references_in_html env0 none "book" none
        ([HtmlPiece.text "A"] ++
          HtmlPiece.ph " " "missing.png" " " "image" :: [HtmlPiece.text "B"])).1 =
      (replace_image_references_in_html env0 none "book" none [HtmlPiece.text "A"]).1 ++
        renderPH " " "missing.png" " " "image" ++
        (replace_image_references_in_html env0 none "book" none [HtmlPiece.text "B"]).1 :=
  ⟨rfl, rfl,
    (C2_thm env0 none "book" none " " "missing.png" " " "image"
      [HtmlPiece.text "A"] [HtmlPiece.text "B"]).1 rfl⟩

/-- Claim C4, counterexample: with every copy oracle succeeding, placing a
file that already sits at its canonical path returns `None` (the underlying
`copyfile` raises `SameFileError`), not the canonical path. -/
theorem C4_counterexample :
    (copy_image_to_html_dir envAllOK "media/img.jpg" "media").1 = none ∧
    pathJoin "media" (baseName "media/img.jpg") = "media/img.jpg" := by
  constructor <;> decide

/-- Claim C4, amended: the place operation returns either `None` or the
canonical path `html_dir/basename`; it never creates a directory; and when
the image is already at the canonical path it always returns `None`
(`copyfile` raises `SameFileError`, caught and treated as failure), rather
than returning the canonical path. -/
theorem C4_amended (env : Env) (ip hd : String) :
    ((copy_image_to_html_dir env ip hd).1 = none ∨
      (copy_image_to_html_dir env ip hd).1 = some (pathJoin hd (baseName ip))) ∧
    (((copy_image_to_html_dir env ip hd).2).all fun e => !(isMkdirEv e)) = true ∧
    (ip = pathJoin hd (baseName ip) → (copy_image_to_html_dir env ip hd).1 = none) := by
  by_cases hsame : ip = pathJoin hd (baseName ip)
  · rw [copy_img_same env ip hd hsame]
    simp
  · by_cases hok : env.copyOK ip (pathJoin hd (baseName ip))
    · rw [copy_img_ok env ip hd hsame hok]
      simp [isMkdirEv, hsame]
    · have hok' : env.copyOK ip (pathJoin hd (baseName ip)) = false := by simpa using hok
      rw [copy_img_bad env ip hd hsame hok']
      simp [isMkdirEv]

/-- Claim C4, witness: the amended place behaviour at a concrete input whose
image already sits in the canonical directory. -/
theorem C4_witness :
    ((copy_image_to_html_dir envAllOK "media/img.jpg" "media").1 = none ∨
      (copy_image_to_html_dir envAllOK "media/img.jpg" "media").1 =
        some "media/img.jpg") ∧
    (((copy_image_to_html_dir envAllOK "media/img.jpg" "media").2).all
        fun e => !(isMkdirEv e)) = true ∧
    (copy_image_to_html_dir envAllOK "media/img.jpg" "media").1 = none := by
  have h := C4_amended envAllOK "media/img.jpg" "media"
  exact ⟨h.1, h.2.1, h.2.2 rfl⟩

/-- Claim C6: the resolver checks `media_dir/filename` first (only when a
media directory is provided), then `tex_dir/filename`, first existing match
wins; and it returns `none` exactly when neither exists — it is a total
function, so the surrounding pipeline is never aborted. -/
theorem C6_thm (env : Env) (md : Option String) (td : String) (f : String) :
    resolveImagePath env md td f = resolveSpec env md td f ∧
    (resolveImagePath env md td f = none ↔
      mediaProvidedHit env md f = false ∧ env.isFile (pathJoin td f) = false) := by
  have hspec : resolveImagePath env md td f = resolveSpec env md td f := by
    unfold resolveImagePath resolveSpec mediaProvidedHit
    cases md with
    | none => simp
    | some d =>
      by_cases hde : d = ""
      · simp [hde]
      · by_cases hm : env.isFile (pathJoin d f)
        · simp [hde, hm]
        · simp [hde, hm]
  refine ⟨hspec, ?_⟩
  rw [hspec]
  unfold resolveSpec
  by_cases hm : mediaProvidedHit env md f
  · simp [hm]
  · by_cases ht : env.isFile (pathJoin td f)
    · simp [hm, ht]
    · simp [hm, ht]

/-! ## Lemmas about the assembler loop -/

theorem cth_ok (env : Env) (t : String) (em dbg : Bool) (h : env.pandocOK t = true) :
    convert_tex_to_html env t em dbg =
      ((some (strReplace t ".tex" ".html"), mediaDirOpt em t),
       [Ev.pandoc t] ++
         (if dbg then [Ev.log ("Successfully converted " ++ t ++ " to HTML.")]
          else [])) := by
  unfold convert_tex_to_html
  rw [if_pos h]

theorem cth_fail (env : Env) (t : String) (em dbg : Bool)
    (h : env.pandocOK t = false) :
    convert_tex_to_html env t em dbg =
      ((none, none),
       [Ev.pandoc t] ++
         (if dbg then [Ev.log ("Error converting " ++ t ++ " to HTML.")]
          else [])) := by
  unfold convert_tex_to_html
  rw [h]
  simp

theorem processOne_spine (env : Env) (em dbg : Bool) (hd : Option String)
    (idx : Nat) (t : String) :
    (processOne env em dbg hd idx t).spine =
      if succeedsB env t then [mkChapter env em dbg hd idx t] else [] := by
  unfold processOne succeedsB
  by_cases h1 : env.isFile t = false
  · rw [if_pos h1, h1]
    simp
  · have h1' : env.isFile t = true := by
      revert h1
      cases env.isFile t <;> simp
    rw [if_neg h1, h1']
    by_cases h2 : env.pandocOK t = true
    · rw [cth_ok env t em dbg h2, h2]
      by_cases h3 : env.htmlProduced (strReplace t ".tex" ".html") = false
      · simp [h3]
      · have h3' : env.htmlProduced (strReplace t ".tex" ".html") = true := by
          revert h3
          cases env.htmlProduced (strReplace t ".tex" ".html") <;> simp
        simp [h3', mkChapter, chapterBodyOf]
    · have h2' : env.pandocOK t = false := by
        revert h2
        cases env.pandocOK t <;> simp
      rw [cth_fail env t em dbg h2', h2']
      simp

theorem processOne_items (env : Env) (em dbg : Bool) (hd : Option String)
    (idx : Nat) (t : String) :
    (processOne env em dbg hd idx t).items =
      if succeedsB env t then
        EpubItem.chap (mkChapter env em dbg hd idx t) ::
          (if em then add_media_to_epub env (mediaDirOpt em t) else [])
      else [] := by
  unfold processOne succeedsB
  by_cases h1 : env.isFile t = false
  · rw [if_pos h1, h1]
    simp
  · have h1' : env.isFile t = true := by
      revert h1
      cases env.isFile t <;> simp
    rw [if_neg h1, h1']
    by_cases h2 : env.pandocOK t = true
    · rw [cth_ok env t em dbg h2, h2]
      by_cases h3 : env.htmlProduced (strReplace t ".tex" ".html") = false
      · simp [h3]
      · have h3' : env.htmlProduced (strReplace t ".tex" ".html") = true := by
          revert h3
          cases env.htmlProduced (strReplace t ".tex" ".html") <;> simp
        simp [h3', mkChapter, chapterBodyOf]
    · have h2' : env.pandocOK t = false := by
        revert h2
        cases env.pandocOK t <;> simp
      rw [cth_fail env t em dbg h2', h2']
      simp

theorem rewrite_events_no_write (env : Env) (md : Option String) (td : String)
    (hd : Option String) (doc : List HtmlPiece) :
    ((replace_image_references_in_html env md td hd doc).2).all
      (fun e => !(isWriteE e)) = true := by
  induction doc with
  | nil => rfl
  | cons pc doc ih =>
    rw [rewrite_cons]
    simp only [List.all_append, Bool.and_eq_true]
    refine ⟨?_, ih⟩
    cases pc with
    | text s => rfl
    | ph b f a i => exact rp_events_no_write env md td hd b f a i

theorem rewrite_events_no_place (env : Env) (md : Option String) (td : String)
    (doc : List HtmlPiece) :
    ((replace_image_references_in_html env md td none doc).2).all
      (fun e => !(isPlacementEv e)) = true := by
  induction doc with
  | nil => rfl
  | cons pc doc ih =>
    rw [rewrite_cons]
    simp only [List.all_append, Bool.and_eq_true]
    refine ⟨?_, ih⟩
    cases pc with
    | text s => rfl
    | ph b f a i => exact rp_events_no_place env md td b f a i

theorem processOne_no_write (env : Env) (em dbg : Bool) (hd : Option String)
    (idx : Nat) (t : String) :
    ((processOne env em dbg hd idx t).events).all (fun e => !(isWriteE e)) = true := by
  unfold processOne
  by_cases h1 : env.isFile t = false
  · rw [if_pos h1]
    cases dbg <;> simp [isWriteE]
  · rw [if_neg h1]
    by_cases h2 : env.pandocOK t = true
    · rw [cth_ok env t em dbg h2]
      by_cases h3 : env.htmlProduced (strReplace t ".tex" ".html") = false
      · cases dbg <;> simp [h3, isWriteE]
      · cases hd <;> cases dbg <;>
          (simp [h3, isWriteE] <;>
            (intro x hx
             have hx2 := List.all_eq_true.mp
               (rewrite_events_no_write env (mediaDirOpt em t) (pathParent t) _
                 (cleanDoc (env.htmlContent _))) x hx
             simpa [isWriteE] using hx2))
    · have h2' : env.pandocOK t = false := by
        revert h2
        cases env.pandocOK t <;> simp
      rw [cth_fail env t em dbg h2']
      cases dbg <;> simp [isWriteE]

theorem processOne_no_place (env : Env) (em : Bool) (idx : Nat) (t : String) :
    ((processOne env em false none idx t).events).all
      (fun e => !(isPlacementEv e)) = true := by
  unfold processOne
  by_cases h1 : env.isFile t = false
  · rw [if_pos h1]
    simp
  · rw [if_neg h1]
    by_cases h2 : env.pandocOK t = true
    · rw [cth_ok env t em false h2]
      by_cases h3 : env.htmlProduced (strReplace t ".tex" ".html") = false
      · simp [h3, isPlacementEv]
      · simp [h3, isPlacementEv] <;>
          (intro x hx
           have hx2 := List.all_eq_true.mp
             (rewrite_events_no_place env (mediaDirOpt em t) (pathParent t)
               (cleanDoc (env.htmlContent _))) x hx
           simpa [isPlacementEv] using hx2)
    · have h2' : env.pandocOK t = false := by
        revert h2
        cases env.pandocOK t <;> simp
      rw [cth_fail env t em false h2']
      simp [isPlacementEv]

theorem processLoop_spine_names (env : Env) (em dbg : Bool) (hd : Option String) :
    ∀ (mats : List String) (n : Nat),
      ((processLoop env em dbg hd n mats).spine).map (fun c => c.fileName) =
        (List.enumFrom n mats).filterMap fun it =>
          if succeedsB env it.2 then
            some ("chapter_" ++ toString (it.1 + 1) ++ ".xhtml")
          else none := by
  intro mats
  induction mats with
  | nil => intro n; rfl
  | cons t ts ih =>
    intro n
    show ((processOne env em dbg hd n t).spine ++
        (processLoop env em dbg hd (n + 1) ts).spine).map (fun c => c.fileName) = _
    rw [List.map_append, processOne_spine, ih]
    by_cases hs : succeedsB env t
    · simp [List.enumFrom, hs, mkChapter]
    · simp [List.enumFrom, hs]

theorem processLoop_spine_titles (env : Env) (em dbg : Bool) (hd : Option String) :
    ∀ (mats : List String) (n : Nat),
      ((processLoop env em dbg hd n mats).spine).map (fun c => c.title) =
        (List.enumFrom n mats).filterMap fun it =>
          if succeedsB env it.2 then
            some ("Chapter " ++ toString (it.1 + 1))
          else none := by
  intro mats
  induction mats with
  | nil => intro n; rfl
  | cons t ts ih =>
    intro n
    show ((processOne env em dbg hd n t).spine ++
        (processLoop env em dbg hd (n + 1) ts).spine).map (fun c => c.title) = _
    rw [List.map_append, processOne_spine, ih]
    by_cases hs : succeedsB env t
    · simp [List.enumFrom, hs, mkChapter]
    · simp [List.enumFrom, hs]

theorem processLoop_no_write (env : Env) (em dbg : Bool) (hd : Option String) :
    ∀ (mats : List String) (n : Nat),
      ((processLoop env em dbg hd n mats).events).all (fun e => !(isWriteE e)) = true := by
  intro mats
  induction mats with
  | nil => intro n; rfl
  | cons t ts ih =>
    intro n
    show (((processOne env em dbg hd n t).events ++
        (processLoop env em dbg hd (n + 1) ts).events).all fun e => !(isWriteE e)) = true
    rw [List.all_append]
    rw [processOne_no_write, ih]
    rfl

theorem processLoop_no_place (env : Env) (em : Bool) :
    ∀ (mats : List String) (n : Nat),
      ((processLoop env em false none n mats).events).all
        (fun e => !(isPlacementEv e)) = true := by
  intro mats
  induction mats with
  | nil => intro n; rfl
  | cons t ts ih =>
    intro n
    show (((processOne env em false none n t).events ++
        (processLoop env em false none (n + 1) ts).events).all
          fun e => !(isPlacementEv e)) = true
    rw [List.all_append]
    rw [processOne_no_place, ih]
    rfl

theorem run_ne (env : Env) (p : String) (cfg : Config) (h : cfg.materials ≠ []) :
    convert_tex_to_epub env p cfg =
      (Except.ok (runBody env p cfg).1, (runBody env p cfg).2) := by
  unfold convert_tex_to_epub
  rw [if_neg h]

theorem runBody_no_place (env : Env) (p : String) (cfg : Config)
    (h : cfg.debug = false) :
    (((runBody env p cfg).2).all fun e => !(isPlacementEv e)) = true := by
  have hhd : hdOf p cfg = none := by
    unfold hdOf
    rw [h]
    rfl
  unfold runBody
  rw [hhd]
  simp only [List.all_append, Bool.and_eq_true]
  refine ⟨⟨⟨⟨?_, ?_⟩, ?_⟩, ?_⟩, ?_⟩
  · unfold dbgStartEvs
    rw [h]
    rfl
  · unfold coverEvsOf dbgCoverWarn
    cases cfg.cover with
    | none =>
      rw [h]
      rfl
    | some c =>
      by_cases hc : c ≠ "" ∧ env.isFile c
      · simp [hc, isPlacementEv]
      · simp [hc, h]
  · unfold mkdirEvs
    rw [h]
    rfl
  · rw [h]
    exact processLoop_no_place env cfg.extractMedia cfg.materials 0
  · unfold finalWriteEvs
    rw [h]
    rfl

/-! ## Claims C1, C3, C7, C8, C10 -/

/-- Claim C1, counterexample: with two materials of which only the second
converts, the single chapter in the spine is `chapter_2.xhtml`, not
`chapter_1.xhtml` — chapter numbering follows material positions, so the
numbering of the successfully converted materials has a gap. -/
theorem C1_counterexample :
    spineNamesOf (convert_tex_to_epub env1 "config.json" cfg1).1 =
      ["chapter_2.xhtml"] ∧
    spineNamesOf (convert_tex_to_epub env1 "config.json" cfg1).1 ≠
      ["chapter_1.xhtml"] := by
  constructor <;> decide

/-- Claim C1, amended: the package contains exactly one chapter per material
that successfully converts, in material order, but a chapter is numbered by
the 1-based position of its material in the configuration, so failed
materials leave gaps in the chapter numbering. -/
theorem C1_amended (env : Env) (p : String) (cfg : Config) :
    spineNamesOf (convert_tex_to_epub env p cfg).1 =
      (cfg.materials.enum.filterMap fun it =>
        if succeedsB env it.2 then
          some ("chapter_" ++ toString (it.1 + 1) ++ ".xhtml")
        else none) ∧
    spineTitlesOf (convert_tex_to_epub env p cfg).1 =
      (cfg.materials.enum.filterMap fun it =>
        if succeedsB env it.2 then
          some ("Chapter " ++ toString (it.1 + 1))
        else none) := by
  by_cases hm : cfg.materials = []
  · unfold convert_tex_to_epub
    rw [if_pos hm, hm]
    exact ⟨rfl, rfl⟩
  · rw [run_ne env p cfg hm]
    constructor
    · exact processLoop_spine_names env cfg.extractMedia cfg.debug (hdOf p cfg)
        cfg.materials 0
    · exact processLoop_spine_titles env cfg.extractMedia cfg.debug (hdOf p cfg)
        cfg.materials 0

/-- Claim C7: an empty materials list makes the run abort with the
configuration error, with an empty event trace — before any document
processing or output file I/O; and this is the only way the run fails:
whenever the outcome is not a completed book, the materials list was
empty. -/
theorem C7_thm (env : Env) (p : String) (cfg : Config) :
    (cfg.materials = [] →
      convert_tex_to_epub env p cfg =
        (Except.error "No materials specified in the configuration file.", [])) ∧
    (isOkE (convert_tex_to_epub env p cfg).1 = false → cfg.materials = []) := by
  constructor
  · intro h
    unfold convert_tex_to_epub
    rw [if_pos h]
  · intro h
    by_cases hm : cfg.materials = []
    · exact hm
    · rw [run_ne env p cfg hm] at h
      exact absurd h (by simp [isOkE])

/-- Claim C7, witness: the empty-materials configuration concretely. -/
theorem C7_witness :
    convert_tex_to_epub env0 "config.json" cfgEmpty =
      (Except.error "No materials specified in the configuration file.", []) ∧
    cfgEmpty.materials = [] :=
  ⟨(C7_thm env0 "config.json" cfgEmpty).1 rfl,
   (C7_thm env0 "config.json" cfgEmpty).2 rfl⟩

/-- Claim C8: for every configuration that is not rejected, the produced
book has identifier `id123456`, title `Generated ePub`, language `en`, and
the single package write in the trace targets `output.epub`, independently
of the configuration. -/
theorem C8_thm (env : Env) (p : String) (cfg : Config) (h : cfg.materials ≠ []) :
    ∃ b, (convert_tex_to_epub env p cfg).1 = Except.ok b ∧
      b.identifier = "id123456" ∧ b.title = "Generated ePub" ∧ b.language = "en" ∧
      Ev.writeEpubE "output.epub" ∈ (convert_tex_to_epub env p cfg).2 ∧
      ∀ fl, Ev.writeEpubE fl ∈ (convert_tex_to_epub env p cfg).2 →
        fl = "output.epub" := by
  rw [run_ne env p cfg h]
  refine ⟨(runBody env p cfg).1, rfl, rfl, rfl, rfl, ?_, ?_⟩
  · show Ev.writeEpubE "output.epub" ∈ (runBody env p cfg).2
    unfold runBody finalWriteEvs
    simp
  · intro fl hfl
    have hfl' : Ev.writeEpubE fl ∈ (runBody env p cfg).2 := hfl
    unfold runBody at hfl'
    simp only [List.mem_append] at hfl'
    rcases hfl' with ((((h1 | h2) | h3) | h4) | h5)
    · unfold dbgStartEvs at h1
      by_cases hd : cfg.debug <;> simp [hd] at h1
    · unfold coverEvsOf dbgCoverWarn at h2
      cases hcv : cfg.cover with
      | none =>
        rw [hcv] at h2
        by_cases hd : cfg.debug <;> simp [hd] at h2
      | some c =>
        rw [hcv] at h2
        by_cases hc : c ≠ "" ∧ env.isFile c
        · simp [hc] at h2
        · by_cases hd : cfg.debug <;> simp [hc, hd] at h2
    · unfold mkdirEvs at h3
      by_cases hd : cfg.debug <;> simp [hd] at h3
    · have hw := List.all_eq_true.mp
        (processLoop_no_write env cfg.extractMedia cfg.debug (hdOf p cfg)
          cfg.materials 0) _ h4
      simp [isWriteE] at hw
    · unfold finalWriteEvs at h5
      by_cases hd : cfg.debug <;> simp [hd] at h5 <;> exact h5

/-- Claim C8, witness: the metadata and output name at a concrete input. -/
theorem C8_witness :
    cfg1.materials ≠ [] ∧
    isOkE (convert_tex_to_epub env1 "config.json" cfg1).1 = true ∧
    Ev.writeEpubE "output.epub" ∈ (convert_tex_to_epub env1 "config.json" cfg1).2 := by
  obtain ⟨b, hb, _, _, _, hmem, _⟩ := C8_thm env1 "config.json" cfg1 (by decide)
  refine ⟨by decide, ?_, hmem⟩
  rw [hb]
  rfl

/-- Claim C10: with debug disabled the run performs no directory creation
and no copy at all (so no canonical placement directory comes into being),
and every placeholder whose resolution and transcoding succeed is replaced
by a tag referencing only the bare basename of the (possibly transcoded)
file in its original location, again with no copy event. -/
theorem C10_thm (env : Env) (p : String) (cfg : Config) (h : cfg.debug = false) :
    (((convert_tex_to_epub env p cfg).2).all fun e => !(isPlacementEv e)) = true ∧
    (∀ md td b f a i q, finalSource env md td f = some q →
      (replace_placeholder env md td none b f a i).1 = imgTagStr (baseName q) ∧
      ((replace_placeholder env md td none b f a i).2).all
        (fun e => !(isPlacementEv e)) = true) := by
  constructor
  · by_cases hm : cfg.materials = []
    · unfold convert_tex_to_epub
      rw [if_pos hm]
      rfl
    · rw [run_ne env p cfg hm]
      exact runBody_no_place env p cfg h
  · intro md td b f a i q hq
    exact ⟨success_tag env md td b f a i q hq,
           rp_events_no_place env md td b f a i⟩

/-- Claim C10, witness: a non-debug run with no placement events, and the
concrete `diagram.pdf` placeholder replaced by its bare transcoded
basename. -/
theorem C10_witness :
    (((convert_tex_to_epub env1 "config.json" cfg1).2).all
      fun e => !(isPlacementEv e)) = true ∧
    (replace_placeholder env3 (some "book/doc_media") "book" none
        " " "diagram.pdf" " " "image").1 = imgTagStr "diagram.jpg" := by
  have h1 := (C10_thm env1 "config.json" cfg1 rfl).1
  have h2 := ((C10_thm env3 "config.json" cfg3 rfl).2 (some "book/doc_media")
    "book" " " "diagram.pdf" " " "image" "book/diagram.jpg" (by decide)).1
  have e1 : baseName "book/diagram.jpg" = "diagram.jpg" := by decide
  rw [e1] at h2
  exact ⟨h1, h2⟩

/-- Claim C3, counterexample: in the `diagram.pdf` scenario the chapter body
contains exactly the image tag for the derived raster `diagram.jpg`, but the
package's media assets are empty — the raster is not among them. -/
theorem C3_counterexample :
    chapterBodiesOf (convert_tex_to_epub env3 "config.json" cfg3).1 =
      [imgTagStr "diagram.jpg"] ∧
    mediaNamesOf (convert_tex_to_epub env3 "config.json" cfg3).1 = [] := by
  constructor <;> decide

theorem chapterBodiesOf_ok (b : Book) :
    chapterBodiesOf (Except.ok b) = b.spine.map (fun c => c.content) := rfl

theorem mediaNamesOf_ok (b : Book) :
    mediaNamesOf (Except.ok b) = b.items.filterMap itemFileName := rfl

theorem runBody_spine (env : Env) (p : String) (cfg : Config) :
    (runBody env p cfg).1.spine =
      (processLoop env cfg.extractMedia cfg.debug (hdOf p cfg) 0 cfg.materials).spine :=
  rfl

theorem runBody_items (env : Env) (p : String) (cfg : Config) :
    (runBody env p cfg).1.items =
      (processLoop env cfg.extractMedia cfg.debug (hdOf p cfg) 0 cfg.materials).items ++
        [EpubItem.ncx, EpubItem.nav] :=
  rfl

theorem processLoop_one (env : Env) (em dbg : Bool) (hd : Option String)
    (n : Nat) (t : String) :
    processLoop env em dbg hd n [t] =
      ⟨(processOne env em dbg hd n t).items ++ [],
       (processOne env em dbg hd n t).spine ++ [],
       (processOne env em dbg hd n t).events ++ []⟩ :=
  rfl

/-- Claim C3, amended: in the `diagram.pdf` scenario (one material
`book/doc.tex`, extraction on, debug off, the pdf resolvable only in the
source directory, transcoding succeeding) the chapter body is exactly the
image tag for the derived raster `diagram.jpg`; but the raster is **not**
among the package's media assets, because assets are only collected from the
pandoc media directory while the raster is created next to the pdf in the
source directory. -/
theorem C3_amended (env : Env) (p : String) (tpl cov : Option String)
    (h1 : env.isFile "book/doc.tex" = true)
    (h2 : env.pandocOK "book/doc.tex" = true)
    (h3 : env.htmlProduced "book/doc.html" = true)
    (h4 : env.htmlContent "book/doc.html" =
      [HtmlPiece.ph " " "diagram.pdf" " " "image"])
    (h5 : env.isFile "book/doc_media/diagram.pdf" = false)
    (h6 : env.isFile "book/diagram.pdf" = true)
    (h7 : env.convertOK "book/diagram.pdf" = true)
    (h8 : env.jpgIsFile "book/diagram.jpg" = true)
    (h9 : ∀ it ∈ add_media_to_epub env (some "book/doc_media"),
      itemFileName it ≠ some "diagram.jpg") :
    chapterBodiesOf
        (convert_tex_to_epub env p ⟨cov, ["book/doc.tex"], tpl, true, false⟩).1 =
      [imgTagStr "diagram.jpg"] ∧
    "diagram.jpg" ∉
      mediaNamesOf
        (convert_tex_to_epub env p ⟨cov, ["book/doc.tex"], tpl, true, false⟩).1 := by
  have e1 : strReplace "book/doc.tex" ".tex" ".html" = "book/doc.html" := by decide
  have e2 : mediaDirOpt true "book/doc.tex" = some "book/doc_media" := by decide
  have e3 : pathParent "book/doc.tex" = "book" := by decide
  have hsucc : succeedsB env "book/doc.tex" = true := by
    unfold succeedsB
    rw [e1, h1, h2, h3]
    rfl
  have er : resolveImagePath env (some "book/doc_media") "book" "diagram.pdf" =
      some "book/diagram.pdf" := by
    have j1 : pathJoin "book/doc_media" "diagram.pdf" =
        "book/doc_media/diagram.pdf" := by decide
    have j2 : pathJoin "book" "diagram.pdf" = "book/diagram.pdf" := by decide
    simp [resolveImagePath, j1, j2, h5, h6]
  have e5 : finalSource env (some "book/doc_media") "book" "diagram.pdf" =
      some "book/diagram.jpg" := by
    have s1 : suffixLower "book/diagram.pdf" = ".pdf" := by decide
    have s2 : withSuffixJpg "book/diagram.pdf" = "book/diagram.jpg" := by decide
    unfold finalSource
    rw [er]
    simp [h6, s1, s2, h7, h8]
  have e6 := success_tag env (some "book/doc_media") "book"
    " " "diagram.pdf" " " "image" "book/diagram.jpg" e5
  have e7 : baseName "book/diagram.jpg" = "diagram.jpg" := by decide
  rw [e7] at e6
  have hbody : chapterBodyOf env true false none "book/doc.tex" =
      imgTagStr "diagram.jpg" := by
    show (replace_image_references_in_html env (mediaDirOpt true "book/doc.tex")
        (pathParent "book/doc.tex") none
        (cleanDoc (env.htmlContent (strReplace "book/doc.tex" ".tex" ".html")))).1 =
      imgTagStr "diagram.jpg"
    rw [e1, e2, e3, h4]
    show ((replace_placeholder env (some "book/doc_media") "book" none
        " " "diagram.pdf" " " "image").1 ++ "") = imgTagStr "diagram.jpg"
    rw [e6]
    simp
  have hm : (⟨cov, ["book/doc.tex"], tpl, true, false⟩ : Config).materials ≠ [] := by
    simp
  rw [run_ne env p _ hm]
  have hhd : hdOf p (⟨cov, ["book/doc.tex"], tpl, true, false⟩ : Config) = none := rfl
  constructor
  · rw [chapterBodiesOf_ok, runBody_spine, hhd]
    show ((processLoop env true false none 0 ["book/doc.tex"]).spine).map
        (fun c : Chapter => c.content) = [imgTagStr "diagram.jpg"]
    rw [processLoop_one]
    show ((processOne env true false none 0 "book/doc.tex").spine ++ []).map
        (fun c : Chapter => c.content) = [imgTagStr "diagram.jpg"]
    rw [List.append_nil, processOne_spine, hsucc]
    simp [mkChapter, hbody]
  · intro hmem
    rw [mediaNamesOf_ok, runBody_items, hhd] at hmem
    have hmem2 : "diagram.jpg" ∈
        (((processOne env true false none 0 "book/doc.tex").items ++ []) ++
          [EpubItem.ncx, EpubItem.nav]).filterMap itemFileName := hmem
    rw [List.append_nil, processOne_items, hsucc] at hmem2
    rw [List.mem_filterMap] at hmem2
    obtain ⟨it, hit, hname⟩ := hmem2
    rw [e2] at hit
    rcases List.mem_append.mp hit with hit1 | hit2
    · rcases List.mem_cons.mp hit1 with hc | hm2
      · subst hc
        simp [itemFileName] at hname
      · have hm3 : it ∈ add_media_to_epub env (some "book/doc_media") := by
          simpa using hm2
        exact h9 it hm3 hname
    · rcases List.mem_cons.mp hit2 with hc | hc
      · subst hc
        simp [itemFileName] at hname
      · rw [List.mem_singleton] at hc
        subst hc
        simp [itemFileName] at hname

/-- Claim C3, witness: the amended scenario at the concrete world `env3`. -/
theorem C3_witness :
    chapterBodiesOf (convert_tex_to_epub env3 "config.json" cfg3).1 =
      [imgTagStr "diagram.jpg"] ∧
    "diagram.jpg" ∉ mediaNamesOf (convert_tex_to_epub env3 "config.json" cfg3).1 :=
  C3_amended env3 "config.json" none none (by decide) rfl rfl rfl (by decide)
    (by decide) rfl rfl (by decide)

end TexToEpub
